import Mathlib

/-!
Shallow embedding of `src/b.py` (a terminal viewer for Claude Code usage
blocks) and verification of the specification's claims about it.

Modelling conventions:
* Python `int` is `Int`, Python `float` is modelled exactly as `Rat`
  (the spec tolerates only floating-point accumulation drift for costs;
  all quantities appearing here are small enough that the rational model
  and IEEE doubles agree on every claim checked below).
* A Python `datetime.datetime` value is modelled by its components
  (`PyDateTime`): days since an arbitrary epoch plus hour/minute/second/
  microsecond.  The program parses ISO-8601 strings with
  `datetime.fromisoformat` (standard library, external to the repository)
  and only ever uses the resulting component values, so the embedding
  works directly with the parsed components.
* `int(x)` applied to a float quotient is truncation toward zero of the
  exact quotient (`pyIntDiv`).
* Python dictionaries preserve insertion order; they are modelled as
  association lists updated in place and extended at the end.
-/

/-- Python `int(a / b)` for integers `a` and positive `b`: true division
followed by `int()` truncates the exact quotient toward zero, which is
truncating integer division. `pyIntDiv_eq_floor` and `pyIntDiv_eq_ceil`
characterise it as the floor of the quotient for nonnegative `a` and its
ceiling for negative `a`. -/
def pyIntDiv (a b : ℤ) : ℤ :=
  a.tdiv b

/-- Python substring containment `needle in hay`, on character lists. -/
def containsSub (needle : List Char) : List Char → Bool
  | [] => needle.isEmpty
  | c :: t => needle.isPrefixOf (c :: t) || containsSub needle t

/-- Python substring containment on `String`. -/
def strContains (hay needle : String) : Bool :=
  containsSub needle.toList hay.toList

/-- Model-name simplification from `load_from_json` (src/b.py lines
98-107): raw names containing "opus" become "opus-4", containing
"sonnet" become "sonnet-4", containing "synthetic" become "synthetic",
anything else passes through unchanged. -/
def simplifyModel (m : String) : String :=
  if strContains m "opus" then "opus-4"
  else if strContains m "sonnet" then "sonnet-4"
  else if strContains m "synthetic" then "synthetic"
  else m

/-- A Python `datetime.datetime` value, by components: `day` counts days
from an arbitrary epoch, the remaining fields are the civil time of day.
`datetime` guarantees `hour < 24`, `minute < 60`, `second < 60`,
`micro < 1000000`; theorems that need these bounds take them as
hypotheses. -/
structure PyDateTime where
  day : ℤ
  hour : ℕ
  minute : ℕ
  second : ℕ
  micro : ℕ
  deriving DecidableEq, Repr

/-- Microseconds since the epoch; datetime comparison and subtraction
are carried out on this value. -/
def PyDateTime.toMicro (t : PyDateTime) : ℤ :=
  (((t.day * 24 + (t.hour : ℤ)) * 60 + (t.minute : ℤ)) * 60 + (t.second : ℤ)) * 1000000
    + (t.micro : ℤ)

/-- Duration computation from `load_from_json` (src/b.py line 95):
`int((end_time - start_time).total_seconds() / 60)`.
`total_seconds()` is the signed difference in seconds (exactly the
microsecond difference over 10^6), so the computed value is the
microsecond difference over 60 * 10^6 truncated toward zero. -/
def durationMinutes (start_time end_time : PyDateTime) : ℤ :=
  pyIntDiv (end_time.toMicro - start_time.toMicro) 60000000

/-- One element of the input JSON `blocks` array, with its two or three
ISO-8601 timestamp strings already parsed into components (the program
parses them with `datetime.fromisoformat` immediately on load; the "Z"
suffix is rewritten to "+00:00" first, so parsing always succeeds on the
producer's output). -/
structure RawBlock where
  id : String
  startTime : PyDateTime
  endTime : PyDateTime
  actualEndTime : Option PyDateTime
  isActive : Bool
  isGap : Bool
  entries : ℤ
  totalTokens : ℤ
  costUSD : ℚ
  models : List String
  deriving DecidableEq, Repr

/-- The date-and-minute stamp stored in a `Block`'s `start_time` /
`end_time` fields: the program stores `strftime('%Y-%m-%d %H:%M')` of the
parsed datetime and later re-splits / re-parses that string, so only the
day, hour and minute survive (seconds and microseconds are truncated
away by the format). -/
structure Stamp where
  date : ℤ
  hour : ℕ
  minute : ℕ
  deriving DecidableEq, Repr

/-- Formatting a datetime with `'%Y-%m-%d %H:%M'`. -/
def stampOf (t : PyDateTime) : Stamp :=
  ⟨t.day, t.hour, t.minute⟩

/-- Re-parsing a `Stamp` with `strptime('%Y-%m-%d %H:%M')`: seconds and
microseconds come back as zero. -/
def Stamp.toDateTime (s : Stamp) : PyDateTime :=
  ⟨s.date, s.hour, s.minute, 0, 0⟩

/-- The `Block` dataclass (src/b.py lines 28-40). -/
structure Block where
  id : String
  start_time : Stamp
  end_time : Stamp
  actual_end_time : Option PyDateTime
  is_active : Bool
  is_gap : Bool
  entries : ℤ
  total_tokens : ℤ
  cost_usd : ℚ
  models : List String
  duration_minutes : ℤ
  deriving DecidableEq, Repr

/-- End-time selection of `load_from_json` (src/b.py lines 90-93): the
actual end time when that field is truthy, else the scheduled end
time. -/
def chosenEnd (r : RawBlock) : PyDateTime :=
  match r.actualEndTime with
  | some t => t
  | none => r.endTime

/-- Construction of one `Block` from one raw block in `load_from_json`
(src/b.py lines 88-121): the model list is simplified then deduplicated
(`list(set(models))`). -/
def blockOfRaw (r : RawBlock) : Block :=
  let end_time := chosenEnd r
  { id := r.id
    start_time := stampOf r.startTime
    end_time := stampOf end_time
    actual_end_time := r.actualEndTime
    is_active := r.isActive
    is_gap := r.isGap
    entries := r.entries
    total_tokens := r.totalTokens
    cost_usd := r.costUSD
    models := (r.models.map simplifyModel).dedup
    duration_minutes := durationMinutes r.startTime end_time }

/-- The loading loop of `load_from_json` (src/b.py lines 83-123): blocks
whose gap flag is set are skipped (`continue`), the rest are converted
and appended in order. -/
def loadFromJson : List RawBlock → List Block
  | [] => []
  | r :: rs =>
    if r.isGap then loadFromJson rs
    else blockOfRaw r :: loadFromJson rs

/-- One value of the `daily_data` dictionary (src/b.py lines 136-143):
the per-day aggregate. The `models` set is modelled as an
insertion-ordered duplicate-free list. -/
structure DayData where
  blocks : List Block
  total_duration : ℤ
  total_cost : ℚ
  total_tokens : ℤ
  total_entries : ℤ
  models : List String
  deriving DecidableEq, Repr

/-- The fresh aggregate installed when a date key is first seen. -/
def emptyDay : DayData :=
  ⟨[], 0, 0, 0, 0, []⟩

/-- Adding one model name to the day's model set (`set.add`). -/
def addModel (s : List String) (m : String) : List String :=
  if m ∈ s then s else s ++ [m]

/-- Accumulating one block into a day's aggregate
(src/b.py lines 145-152). -/
def dayAdd (d : DayData) (b : Block) : DayData :=
  { blocks := d.blocks ++ [b]
    total_duration := d.total_duration + b.duration_minutes
    total_cost := d.total_cost + b.cost_usd
    total_tokens := d.total_tokens + b.total_tokens
    total_entries := d.total_entries + b.entries
    models := b.models.foldl addModel d.models }

/-- Dictionary update for `daily_data`: mutate the entry for key `k` in
place when present, otherwise append a fresh entry at the end
(Python dicts preserve insertion order). -/
def insertDay (k : ℤ) (b : Block) : List (ℤ × DayData) → List (ℤ × DayData)
  | [] => [(k, dayAdd emptyDay b)]
  | (k', d) :: rest =>
    if k' = k then (k', dayAdd d b) :: rest
    else (k', d) :: insertDay k b rest

/-- The `_group_by_date` pass (src/b.py lines 128-152): a single fold
over the block collection, keyed on the date part of the stored start
time. -/
def groupByDate (blocks : List Block) : List (ℤ × DayData) :=
  blocks.foldl (fun daily b => insertDay b.start_time.date b daily) []

/-- The glyphs of the timeline bar (`BAR_CHARS`, src/b.py lines 70-77,
and the gray 6-hour marker overlaid at rendering time). -/
inductive Glyph where
  | opus
  | sonnet
  | mixed
  | synthetic
  | empty
  | marker
  deriving DecidableEq, Repr

/-- Glyph selection for one block (src/b.py lines 179-186): "mixed" when
more than one model, otherwise a substring match on the first model name
with "opus" as the fallback.  Indexing `block.models[0]` on an empty
list raises `IndexError`; `none` models that crash. -/
def barCharFor (b : Block) : Option Glyph :=
  if b.models.length > 1 then some .mixed
  else match b.models with
    | [] => none
    | m :: _ =>
      if strContains m "synthetic" then some .synthetic
      else if strContains m "sonnet" then some .sonnet
      else some .opus

/-- One guarded slot assignment of the filling loop
(src/b.py lines 190-191): `timeline[pos] = g` when `pos` is inside the
bar. -/
def setSlot (width : ℕ) (g : Glyph) (tl : List Glyph) (pos : ℕ) : List Glyph :=
  if pos < width then tl.set pos g else tl

/-- The slot-filling loop body for one block (src/b.py lines 169-191):
starting slot is `(hour*60 + minute) / 30`, the span is
`max(1, int(duration_minutes / 30))` slots, iteration runs over
`range(min(duration_blocks, width - start_pos))` and each write is
guarded by the bar width. -/
def writeBlock (width : ℕ) (tl : List Glyph) (b : Block) (g : Glyph) : List Glyph :=
  let start_pos : ℕ := (b.start_time.hour * 60 + b.start_time.minute) / 30
  let duration_blocks : ℤ := max 1 (pyIntDiv b.duration_minutes 30)
  let count : ℤ := min duration_blocks ((width : ℤ) - (start_pos : ℤ))
  (List.range count.toNat).foldl (fun tl i => setSlot width g tl (start_pos + i)) tl

/-- Sequential processing of a day's blocks into the slot array; the
first block with an empty model list aborts with `none`
(Python raises there). -/
def fillBlocks (width : ℕ) : List Block → List Glyph → Option (List Glyph)
  | [], tl => some tl
  | b :: bs, tl =>
    match barCharFor b with
    | none => none
    | some g => fillBlocks width bs (writeBlock width tl b g)

/-- The marker overlay (src/b.py lines 193-202): every 12th slot is
replaced by the 6-hour marker glyph, whatever was written there. -/
def markPass (tl : List Glyph) : List Glyph :=
  tl.enum.map (fun p => if p.1 % 12 = 0 then Glyph.marker else p.2)

/-- The `_get_timeline_bar` renderer (src/b.py lines 164-202): a
width-slot array initialised to the empty glyph, filled block by block,
then overlaid with 6-hour markers.  `none` when some block's model list
is empty (unhandled `IndexError` in the source). -/
def getTimelineBar (blocks : List Block) (width : ℕ := 48) : Option (List Glyph) :=
  (fillBlocks width blocks (List.replicate width Glyph.empty)).map markPass

/-- The day-table sort orders (`--sort-cost` / `--sort-duration`). -/
inductive SortKey where
  | cost
  | duration
  deriving DecidableEq, Repr

/-- Python `sorted(items, key=..., reverse=True)` on the daily map: a
stable sort placing larger keys first (src/b.py lines 275-280). -/
def sortDaysDesc (key : SortKey) (daily : List (ℤ × DayData)) : List (ℤ × DayData) :=
  match key with
  | .cost => daily.mergeSort (fun a b => decide (b.2.total_cost ≤ a.2.total_cost))
  | .duration => daily.mergeSort (fun a b => decide (b.2.total_duration ≤ a.2.total_duration))

/-- Python slicing `l[:n]` for an `int` bound: nonnegative `n` keeps the
first `n` elements, negative `n` drops the last `-n`. -/
def pySlice (n : ℤ) (l : List α) : List α :=
  if 0 ≤ n then l.take n.toNat else l.take (l.length - n.natAbs)

/-- Row selection of the sorted branch of `print_timeline_table`
(src/b.py lines 273-286): sort descending by the requested key, then
slice when the limit value is truthy (`if limit:` — `None` and `0` are
both falsy). -/
def shownRowsSorted (key : SortKey) (limit : Option ℤ)
    (daily : List (ℤ × DayData)) : List (ℤ × DayData) :=
  let dates_to_show := sortDaysDesc key daily
  match limit with
  | some n => if n ≠ 0 then pySlice n dates_to_show else dates_to_show
  | none => dates_to_show

/-- Resolution of the display limit in `main` (src/b.py line 584):
`limit = args.limit if args.limit else (10 if sort_by else None)`.
An explicit `--limit 0` is falsy and falls through to the default. -/
def resolveLimit (argsLimit : Option ℤ) (sortBy : Option SortKey) : Option ℤ :=
  match argsLimit with
  | some n => if n ≠ 0 then some n else (if sortBy.isSome then some 10 else none)
  | none => if sortBy.isSome then some 10 else none

/-- Hardcoded guessed limit on tokens per 5-hour window
(src/b.py line 388). -/
def MAX_TOKENS_5H : ℤ := 58679737

/-- Hardcoded guessed limit on cost per 5-hour window
(src/b.py line 389). -/
def MAX_COST_5H : ℚ := 12727 / 100

/-- Occurrence counting for the `model_counts` dictionary
(src/b.py lines 418-421), insertion-ordered. -/
def bumpCount (m : String) : List (String × ℕ) → List (String × ℕ)
  | [] => [(m, 1)]
  | (m', c) :: rest =>
    if m' = m then (m', c + 1) :: rest
    else (m', c) :: bumpCount m rest

/-- Python `max(items, key=lambda x: x[1])`: the first element with the
maximal count wins ties (replacement only on strictly greater). -/
def firstMaxByCount (x : String × ℕ) (xs : List (String × ℕ)) : String × ℕ :=
  xs.foldl (fun best y => if best.2 < y.2 then y else best) x

/-- The dictionary returned by `get_current_session_info`
(src/b.py lines 433-442); `reset_time` is rendered with `'%H:%M'` and is
modelled as the hour/minute pair, `time_remaining` as the hour/minute
pair of the formatted string. -/
structure SessionInfo where
  model : String
  total_cost : ℚ
  total_tokens : ℤ
  max_tokens : ℤ
  usage_percent : ℚ
  reset_time : ℕ × ℕ
  time_remaining : ℤ × ℤ
  session_count : ℕ
  deriving DecidableEq, Repr

/-- The `get_current_session_info` computation (src/b.py lines 385-442):
the wall-clock hour selects a 5-hour window aligned to hours 0/5/10/15/20,
blocks whose stored start stamp falls in the half-open window are
collected, and the usage percentage is their token total against
`MAX_TOKENS_5H`. -/
def getCurrentSessionInfo (blocks : List Block) (now : PyDateTime) : SessionInfo :=
  let block_start_hour : ℕ := (now.hour / 5) * 5
  let block_end_hour : ℕ := block_start_hour + 5
  let reset_time : PyDateTime :=
    ⟨now.day + (if block_end_hour ≥ 24 then 1 else 0), block_end_hour % 24, 0, 0, 0⟩
  let block_start_time : PyDateTime := ⟨now.day, block_start_hour, 0, 0, 0⟩
  let current_block_sessions := blocks.filter (fun b =>
    block_start_time.toMicro ≤ b.start_time.toDateTime.toMicro
      && b.start_time.toDateTime.toMicro < reset_time.toMicro)
  let total_tokens : ℤ := (current_block_sessions.map (·.total_tokens)).sum
  let total_cost : ℚ := (current_block_sessions.map (·.cost_usd)).sum
  let model_counts := current_block_sessions.foldl
    (fun counts b => b.models.foldl (fun cs m => bumpCount m cs) counts) []
  let primary_model := match model_counts with
    | [] => "N/A"
    | x :: xs => (firstMaxByCount x xs).1
  let usage_percent : ℚ :=
    if MAX_TOKENS_5H > 0 then (total_tokens : ℚ) / (MAX_TOKENS_5H : ℚ) * 100 else 0
  let delta : ℤ := reset_time.toMicro - now.toMicro
  let hours_remaining : ℤ := delta.fdiv 3600000000
  let minutes_remaining : ℤ := (delta.fmod 3600000000).fdiv 60000000
  { model := primary_model
    total_cost := total_cost
    total_tokens := total_tokens
    max_tokens := MAX_TOKENS_5H
    usage_percent := usage_percent
    reset_time := (reset_time.hour, reset_time.minute)
    time_remaining := (hours_remaining, minutes_remaining)
    session_count := current_block_sessions.length }

/-- The un-filtered, un-sorted chronological branch of the day table
(`sorted(self.daily_data.keys())`, src/b.py line 289): date strings sort
lexicographically, which for the `'%Y-%m-%d'` format is chronological
order of the day index. -/
def sortDaysChrono (daily : List (ℤ × DayData)) : List (ℤ × DayData) :=
  daily.mergeSort (fun a b => decide (a.1 ≤ b.1))

/-- Day filters of the chronological table branch (src/b.py lines
294-298). -/
inductive FilterType where
  | all
  | highUsage
  | highCost
  deriving DecidableEq, Repr

/-- Filter acceptance (src/b.py lines 295-298): `high-usage` skips days
under 300 minutes, `high-cost` days under 50 dollars. -/
def passesFilter (ft : FilterType) (d : DayData) : Bool :=
  match ft with
  | .all => true
  | .highUsage => !(d.total_duration < 300)
  | .highCost => !(d.total_cost < 50)

/-- One line of standard output, abstracting each `print` site of the
source to a constructor carrying the data it formats. -/
inductive OutLine where
  | rule
  | headerTitle
  | dateRange (lo hi : ℤ)
  | noData
  | noDataDate (d : ℤ)
  | statsBlock (dur : ℤ) (cost : ℚ) (tokens entries : ℤ) (nblocks ndays : ℕ)
  | statsAverages (avgBlock avgDaily : ℚ)
  | legendBlock
  | tableHeader
  | dayRow (date : ℤ) (n : ℕ) (dur : ℤ) (bar : List Glyph) (tokens : ℤ) (cost : ℚ)
  | detailTitle (d : ℤ)
  | detailBlock (hour minute : ℕ) (dur : ℤ) (models : List String)
      (tokens : ℤ) (cost : ℚ) (entries : ℤ)
  | detailTotals (dur : ℤ) (tokens : ℤ) (cost : ℚ)
  | detailBar (bar : List Glyph)
  | modelSummaryHeader
  | modelRow (m : String) (count : ℕ) (dur : ℤ) (cost : ℚ)
  | sessionLine (info : SessionInfo)
  deriving DecidableEq, Repr

/-- One line of standard error. -/
inductive ErrLine where
  | invalidJson (msg : String)
  | fileNotFound (path : String)
  | otherError (msg : String)
  | traceback
  deriving DecidableEq, Repr

/-- Output of a rendering step: the lines printed so far, and whether
the step completed without an uncaught exception (an exception keeps the
lines already printed and stops the rest). -/
structure ROut where
  lines : List OutLine
  ok : Bool
  deriving DecidableEq, Repr

/-- Sequencing two rendering steps: the second runs only if the first
completed. -/
def ROut.andThen (a b : ROut) : ROut :=
  if a.ok then ⟨a.lines ++ b.lines, b.ok⟩ else a

/-- The `print_header` output (src/b.py lines 213-223). -/
def renderHeader (blocks : List Block) : List OutLine :=
  [.rule, .headerTitle]
    ++ (match blocks with
        | [] => []
        | b :: bs =>
          [.dateRange ((bs.map (·.start_time.date)).foldl min b.start_time.date)
                      ((bs.map (·.start_time.date)).foldl max b.start_time.date)])
    ++ [.rule]

/-- The `print_stats` output (src/b.py lines 225-247): totals are summed
over the per-day aggregates; averages are printed when the block count
is positive. -/
def renderStats (blocks : List Block) (daily : List (ℤ × DayData)) : List OutLine :=
  if blocks = [] then [.noData]
  else
    let total_duration := (daily.map (·.2.total_duration)).sum
    let total_cost := (daily.map (·.2.total_cost)).sum
    let total_tokens := (daily.map (·.2.total_tokens)).sum
    let total_entries := (daily.map (·.2.total_entries)).sum
    [.statsBlock total_duration total_cost total_tokens total_entries
        blocks.length daily.length]
      ++ (if blocks.length > 0 then
            [.statsAverages ((total_duration : ℚ) / (blocks.length : ℚ))
                            (total_cost / (daily.length : ℚ))]
          else [])

/-- The `print_legend` output (src/b.py lines 249-258), collapsed to one
abstract line. -/
def renderLegend : List OutLine :=
  [.legendBlock]

/-- One row of the day table (`_print_day_row`, src/b.py lines 304-323);
fails when the timeline bar raises. -/
def renderDayRow (k : ℤ) (d : DayData) : ROut :=
  match getTimelineBar d.blocks with
  | none => ⟨[], false⟩
  | some bar =>
    ⟨[.dayRow k d.blocks.length d.total_duration bar d.total_tokens d.total_cost], true⟩

/-- The `print_timeline_table` output (src/b.py lines 260-302). -/
def renderTimelineTable (daily : List (ℤ × DayData)) (ft : FilterType)
    (sortBy : Option SortKey) (limit : Option ℤ) : ROut :=
  if daily = [] then ⟨[.noData], true⟩
  else
    let rows : List (ℤ × DayData) :=
      match sortBy with
      | some key => shownRowsSorted key limit daily
      | none => (sortDaysChrono daily).filter (fun p => passesFilter ft p.2)
    ROut.andThen ⟨[.tableHeader, .rule], true⟩
      (ROut.andThen (rows.foldl (fun acc p => ROut.andThen acc (renderDayRow p.1 p.2)) ⟨[], true⟩)
        ⟨[.rule], true⟩)

/-- Dictionary lookup in `daily_data`. -/
def daysLookup (daily : List (ℤ × DayData)) (k : ℤ) : Option DayData :=
  match daily.find? (fun p => p.1 = k) with
  | some p => some p.2
  | none => none

/-- The `print_daily_detail` output (src/b.py lines 325-353): a "no
data" notice when the date has no aggregate, else the header, one line
per block, the totals and the timeline bar (which can raise). -/
def renderDailyDetail (blocks : List Block) (daily : List (ℤ × DayData))
    (date : ℤ) : ROut :=
  match daysLookup daily date with
  | none => ⟨[.noDataDate date], true⟩
  | some d =>
    let blockLines : List OutLine := d.blocks.map (fun b =>
      .detailBlock b.start_time.hour b.start_time.minute b.duration_minutes
        b.models b.total_tokens b.cost_usd b.entries)
    ROut.andThen
      ⟨renderHeader blocks ++ [.detailTitle date, .rule] ++ blockLines
        ++ [.rule, .detailTotals d.total_duration d.total_tokens d.total_cost], true⟩
      (match getTimelineBar d.blocks with
       | none => ⟨[], false⟩
       | some bar => ⟨[.detailBar bar], true⟩)

/-- Per-model accumulator of `print_model_summary`
(src/b.py lines 357-372). -/
structure MStat where
  count : ℕ
  duration : ℤ
  tokens : ℤ
  cost : ℚ
  deriving DecidableEq, Repr

/-- Accumulating one block under one model key of `model_stats`. -/
def bumpModelStat (b : Block) (m : String) : List (String × MStat) → List (String × MStat)
  | [] => [(m, ⟨1, b.duration_minutes, b.total_tokens, b.cost_usd⟩)]
  | (m', s) :: rest =>
    if m' = m then
      (m', ⟨s.count + 1, s.duration + b.duration_minutes,
            s.tokens + b.total_tokens, s.cost + b.cost_usd⟩) :: rest
    else (m', s) :: bumpModelStat b m rest

/-- The `model_stats` dictionary (src/b.py lines 357-372). -/
def modelStats (blocks : List Block) : List (String × MStat) :=
  blocks.foldl (fun stats b => b.models.foldl (fun st m => bumpModelStat b m st) stats) []

/-- The `print_model_summary` output (src/b.py lines 355-383), rows
sorted by cost descending. -/
def renderModelSummary (blocks : List Block) : List OutLine :=
  [.modelSummaryHeader, .rule]
    ++ ((modelStats blocks).mergeSort (fun a b => decide (b.2.cost ≤ a.2.cost))).map
        (fun p => .modelRow p.1 p.2.count p.2.duration p.2.cost)
    ++ [.rule]

/-- The `print_current_session_line` output (src/b.py lines 444-463). -/
def renderCurrentSessionLine (blocks : List Block) (now : PyDateTime) : List OutLine :=
  [.sessionLine (getCurrentSessionInfo blocks now)]

/-- The parsed command line (src/b.py lines 466-516). -/
structure Args where
  file : Option String
  high_usage : Bool
  high_cost : Bool
  sort_cost : Bool
  sort_duration : Bool
  date : Option ℤ
  summary : Bool
  model_summary : Bool
  no_color : Bool
  no_legend : Bool
  limit : Option ℤ
  current : Bool
  deriving DecidableEq, Repr

/-- Outcome of the input-acquisition phase of `main` (src/b.py lines
518-534): either the parsed `blocks` array (`json_data.get('blocks', [])`
defaults to the empty list), or one of the three caught exceptions. -/
inductive LoadResult where
  | ok (raws : List RawBlock)
  | invalidJson (msg : String)
  | fileNotFound (path : String)
  | otherError (msg : String)
  deriving DecidableEq, Repr

/-- Observable outcome of one program run. -/
structure ProgResult where
  exitCode : ℕ
  stdoutLines : List OutLine
  stderrLines : List ErrLine
  deriving DecidableEq, Repr

/-- The `main` driver (src/b.py lines 465-590): the three load failures
exit with code 1 and a one-line diagnostic on standard error before
anything is printed to standard output; otherwise the view selected by
the flags is rendered and the process exits 0, or exits 1 with a
traceback if a render raised. -/
def mainModel (args : Args) (now : PyDateTime) (load : LoadResult) : ProgResult :=
  match load with
  | .invalidJson m => ⟨1, [], [.invalidJson m]⟩
  | .fileNotFound p => ⟨1, [], [.fileNotFound p]⟩
  | .otherError m => ⟨1, [], [.otherError m]⟩
  | .ok raws =>
    let blocks := loadFromJson raws
    let daily := groupByDate blocks
    let out : ROut :=
      if args.current then ⟨renderCurrentSessionLine blocks now, true⟩
      else match args.date with
      | some d => renderDailyDetail blocks daily d
      | none =>
        if args.model_summary then ⟨renderHeader blocks ++ renderModelSummary blocks, true⟩
        else if args.summary then ⟨renderHeader blocks ++ renderStats blocks daily, true⟩
        else
          let ft : FilterType :=
            if args.high_usage then .highUsage
            else if args.high_cost then .highCost
            else .all
          let sb : Option SortKey :=
            if args.sort_cost then some .cost
            else if args.sort_duration then some .duration
            else none
          let lim := resolveLimit args.limit sb
          ROut.andThen
            ⟨renderHeader blocks ++ renderStats blocks daily
              ++ (if !args.no_legend then renderLegend else []), true⟩
            (renderTimelineTable daily ft sb lim)
    if out.ok then ⟨0, out.lines, []⟩ else ⟨1, out.lines, [.traceback]⟩

/-! Concrete sample inputs used by the witness theorems. -/

/-- Sample raw block: 9:00 scheduled to 14:00, actually ended 10:30. -/
def rawA : RawBlock :=
  { id := "a", startTime := ⟨100, 9, 0, 0, 0⟩, endTime := ⟨100, 14, 0, 0, 0⟩,
    actualEndTime := some ⟨100, 10, 30, 0, 0⟩, isActive := false, isGap := false,
    entries := 4, totalTokens := 1000, costUSD := 5, models := ["claude-opus-4"] }

/-- Sample raw block: still active, no actual end time yet. -/
def rawB : RawBlock :=
  { id := "b", startTime := ⟨100, 13, 15, 0, 0⟩, endTime := ⟨100, 18, 15, 0, 0⟩,
    actualEndTime := none, isActive := true, isGap := false,
    entries := 2, totalTokens := 500, costUSD := 3/2,
    models := ["claude-sonnet-4", "claude-opus-4"] }

/-- Sample gap block (idle time), to be skipped by the loader. -/
def rawGap : RawBlock :=
  { id := "g", startTime := ⟨100, 11, 0, 0, 0⟩, endTime := ⟨100, 12, 0, 0, 0⟩,
    actualEndTime := none, isActive := false, isGap := true,
    entries := 0, totalTokens := 0, costUSD := 0, models := [] }

/-- Sample input dataset: two real blocks around one gap block. -/
def demoRaws : List RawBlock := [rawA, rawGap, rawB]

/-- The first (and only) daily aggregate of `demoRaws`. -/
def demoEntry : ℤ × DayData :=
  (groupByDate (loadFromJson demoRaws)).getD 0 (0, emptyDay)

/-- Raw block whose actual end precedes its start by 90 seconds
(ISO strings 2025-01-01T00:01:30Z and 2025-01-01T00:00:00Z, as parsed
components). -/
def rawNeg : RawBlock :=
  { id := "neg", startTime := ⟨0, 0, 1, 30, 0⟩, endTime := ⟨0, 0, 5, 0, 0⟩,
    actualEndTime := some ⟨0, 0, 0, 0, 0⟩, isActive := true, isGap := false,
    entries := 1, totalTokens := 10, costUSD := 1, models := ["claude-opus-4"] }

/-- Single one-hour opus block starting at midnight (the worked scenario
of the specification). -/
def demoBlockOpus : Block :=
  { id := "b1", start_time := ⟨20345, 0, 0⟩, end_time := ⟨20345, 1, 0⟩,
    actual_end_time := none, is_active := false, is_gap := false,
    entries := 5, total_tokens := 1000, cost_usd := 5, models := ["opus-4"],
    duration_minutes := 60 }

/-- The timeline bar produced for `demoBlockOpus`: the opus glyph in
slots 0-1, the marker overriding slot 0 and filling slots 12/24/36. -/
def demoBar : List Glyph :=
  [.marker, .opus] ++ List.replicate 10 .empty
    ++ [.marker] ++ List.replicate 11 .empty
    ++ [.marker] ++ List.replicate 11 .empty
    ++ [.marker] ++ List.replicate 11 .empty

/-- Block with an empty model list, reachable from a raw block whose
`models` array is empty. -/
def blockNoModels : Block :=
  { id := "e", start_time := ⟨100, 3, 0⟩, end_time := ⟨100, 4, 0⟩,
    actual_end_time := none, is_active := false, is_gap := false,
    entries := 1, total_tokens := 1, cost_usd := 1, models := [],
    duration_minutes := 60 }

/-- A day aggregate holding `blockNoModels`. -/
def dayNoModels : DayData :=
  dayAdd emptyDay blockNoModels

/-- Wall-clock instant 02:00 on day 20345 (inside the 0-5 hour
window). -/
def nowC : PyDateTime := ⟨20345, 2, 0, 0, 0⟩

/-- Block inside the current window of `nowC` with zero tokens but cost
exactly `MAX_COST_5H`. -/
def blkCostMax : Block :=
  { id := "c1", start_time := ⟨20345, 1, 0⟩, end_time := ⟨20345, 2, 0⟩,
    actual_end_time := none, is_active := true, is_gap := false,
    entries := 1, total_tokens := 0, cost_usd := 12727 / 100,
    models := ["opus-4"], duration_minutes := 60 }

/-- The same block with zero cost. -/
def blkCostZero : Block :=
  { blkCostMax with cost_usd := 0 }

/-- Two day aggregates with distinct costs, for the sorting witness. -/
def demoDayLow : DayData := ⟨[], 120, 5, 100, 3, ["opus-4"]⟩

/-- The more expensive of the two sample day aggregates. -/
def demoDayHigh : DayData := ⟨[], 60, 9, 200, 4, ["sonnet-4"]⟩

/-- Sample daily map whose maximum-cost day is the second entry. -/
def demoDaily : List (ℤ × DayData) := [(100, demoDayLow), (101, demoDayHigh)]

/-- Command line with no flags set (plain invocation). -/
def defaultArgs : Args :=
  { file := none, high_usage := false, high_cost := false, sort_cost := false,
    sort_duration := false, date := none, summary := false, model_summary := false,
    no_color := false, no_legend := false, limit := none, current := false }

/-! Claim theorems. -/

/-- Characterisation of `pyIntDiv` on nonnegative numerators: it is the
floor of the exact quotient. -/
theorem pyIntDiv_eq_floor {a : ℤ} {d : ℕ} (h : 0 ≤ a) :
    pyIntDiv a (d : ℤ) = ⌊(a : ℚ) / (d : ℚ)⌋ := by
  rw [pyIntDiv, Rat.floor_intCast_div_natCast]
  exact Int.tdiv_eq_ediv h (Int.ofNat_nonneg d)

/-- Characterisation of `pyIntDiv` on negative numerators: it is the
ceiling of the exact quotient. -/
theorem pyIntDiv_eq_ceil {a : ℤ} {d : ℕ} (h : a ≤ 0) :
    pyIntDiv a (d : ℤ) = ⌈(a : ℚ) / (d : ℚ)⌉ := by
  have h1 : pyIntDiv (-a) (d : ℤ) = ⌊((-a : ℤ) : ℚ) / (d : ℚ)⌋ :=
    pyIntDiv_eq_floor (neg_nonneg.mpr h)
  have h2 : pyIntDiv (-a) (d : ℤ) = -pyIntDiv a (d : ℤ) := Int.neg_tdiv a d
  have h3 : ((-a : ℤ) : ℚ) / (d : ℚ) = -((a : ℚ) / (d : ℚ)) := by
    push_cast
    ring
  rw [← neg_neg (pyIntDiv a (d : ℤ)), ← h2, h1, h3, Int.floor_neg, neg_neg]

/-- C7: the model-name simplification function is idempotent: for every
string s, simplify (simplify s) = simplify s. -/
theorem c7_simplify_idempotent (s : String) :
    simplifyModel (simplifyModel s) = simplifyModel s := by
  by_cases h1 : strContains s "opus" = true
  · have hs : simplifyModel s = "opus-4" := by simp [simplifyModel, h1]
    rw [hs]; decide
  · by_cases h2 : strContains s "sonnet" = true
    · have hs : simplifyModel s = "sonnet-4" := by simp [simplifyModel, h1, h2]
      rw [hs]; decide
    · by_cases h3 : strContains s "synthetic" = true
      · have hs : simplifyModel s = "synthetic" := by simp [simplifyModel, h1, h2, h3]
        rw [hs]; decide
      · have hs : simplifyModel s = s := by simp [simplifyModel, h1, h2, h3]
        simp only [hs]

/-- C2 counterexample: a loaded block whose actual end time precedes its
start time by 90 seconds gets duration -1 (truncation toward zero),
while the claimed floor of the same quotient is -2; the claim fails on
this input. -/
theorem c2_counterexample :
    loadFromJson [rawNeg] = [blockOfRaw rawNeg] ∧
    (blockOfRaw rawNeg).duration_minutes = -1 ∧
    ⌊((((chosenEnd rawNeg).toMicro - rawNeg.startTime.toMicro : ℤ) : ℚ) / 1000000) / 60⌋
      = -2 ∧
    (blockOfRaw rawNeg).duration_minutes ≠
      ⌊((((chosenEnd rawNeg).toMicro - rawNeg.startTime.toMicro : ℤ) : ℚ) / 1000000) / 60⌋ := by
  have h1 : (blockOfRaw rawNeg).duration_minutes = -1 := by decide
  have h2 : ⌊((((chosenEnd rawNeg).toMicro - rawNeg.startTime.toMicro : ℤ) : ℚ)
      / 1000000) / 60⌋ = -2 := by
    norm_num [chosenEnd, rawNeg, PyDateTime.toMicro]
  exact ⟨rfl, h1, h2, by rw [h1, h2]; decide⟩

/-- C2 (amended): the loader's derived duration is the exact quotient
(end - start) in seconds over 60 truncated toward zero, where end is the
actual end time when present and the scheduled end time otherwise; this
coincides with the floor whenever the end does not precede the start,
and is the ceiling (not the floor) when it does. -/
theorem c2_duration_truncated (r : RawBlock) :
    (r.startTime.toMicro ≤ (chosenEnd r).toMicro →
      (blockOfRaw r).duration_minutes =
        ⌊((((chosenEnd r).toMicro - r.startTime.toMicro : ℤ) : ℚ) / 1000000) / 60⌋) ∧
    ((chosenEnd r).toMicro < r.startTime.toMicro →
      (blockOfRaw r).duration_minutes =
        ⌈((((chosenEnd r).toMicro - r.startTime.toMicro : ℤ) : ℚ) / 1000000) / 60⌉) := by
  have hdm : (blockOfRaw r).duration_minutes
      = pyIntDiv ((chosenEnd r).toMicro - r.startTime.toMicro) ((60000000 : ℕ) : ℤ) := by
    norm_num [blockOfRaw, durationMinutes]
  have key : (((chosenEnd r).toMicro - r.startTime.toMicro : ℤ) : ℚ) / 1000000 / 60
      = (((chosenEnd r).toMicro - r.startTime.toMicro : ℤ) : ℚ) / ((60000000 : ℕ) : ℚ) := by
    rw [div_div]
    norm_num
  constructor
  · intro h
    rw [key, hdm, pyIntDiv_eq_floor (sub_nonneg.mpr h)]
  · intro h
    rw [key, hdm, pyIntDiv_eq_ceil (sub_nonpos.mpr h.le)]

/-- C2 witness: on the sample block `rawA` (whose actual end follows its
start) the amended statement applies and the duration is the floor. -/
theorem c2_witness :
    rawA.startTime.toMicro ≤ (chosenEnd rawA).toMicro ∧
    (blockOfRaw rawA).duration_minutes =
      ⌊((((chosenEnd rawA).toMicro - rawA.startTime.toMicro : ℤ) : ℚ) / 1000000) / 60⌋ :=
  ⟨by decide, (c2_duration_truncated rawA).1 (by decide)⟩

/-- Length preservation of the guarded slot-assignment loop. -/
theorem foldl_setSlot_length (w : ℕ) (g : Glyph) (f : ℕ → ℕ) :
    ∀ (l : List ℕ) (tl : List Glyph),
      (l.foldl (fun tl i => setSlot w g tl (f i)) tl).length = tl.length := by
  intro l
  induction l with
  | nil => intro tl; rfl
  | cons i is ih =>
    intro tl
    rw [List.foldl_cons, ih]
    unfold setSlot
    split <;> simp

/-- Filling one block never changes the length of the slot array. -/
theorem writeBlock_length (w : ℕ) (tl : List Glyph) (b : Block) (g : Glyph) :
    (writeBlock w tl b g).length = tl.length := by
  simp only [writeBlock]
  exact foldl_setSlot_length w g _ _ tl

/-- Filling all blocks never changes the length of the slot array. -/
theorem fillBlocks_length (w : ℕ) :
    ∀ (bs : List Block) (tl r : List Glyph),
      fillBlocks w bs tl = some r → r.length = tl.length := by
  intro bs
  induction bs with
  | nil =>
    intro tl r h
    simp only [fillBlocks, Option.some.injEq] at h
    rw [← h]
  | cons b bs ih =>
    intro tl r h
    cases hbc : barCharFor b with
    | none => simp [fillBlocks, hbc] at h
    | some g =>
      simp only [fillBlocks, hbc] at h
      rw [ih _ _ h, writeBlock_length]

/-- The marker overlay preserves the bar length. -/
theorem markPass_length (tl : List Glyph) : (markPass tl).length = tl.length := by
  simp [markPass, List.enum_length]

/-- The marker overlay puts the marker glyph at every 12th slot. -/
theorem markPass_marker (tl : List Glyph) (i : ℕ) (hi : i < tl.length)
    (hm : i % 12 = 0) : (markPass tl).get? i = some Glyph.marker := by
  rw [markPass, List.get?_map, List.get?_enum, List.get?_eq_get hi]
  simp [hm]

/-- C3: for every list of blocks, a timeline bar produced at the default
width 48 consists of exactly 48 glyphs, and every slot index divisible
by 12 (slots 0, 12, 24, 36) carries the marker glyph, overriding any
data glyph written there. -/
theorem c3_bar_fixed_width (blocks : List Block) (bar : List Glyph)
    (h : getTimelineBar blocks 48 = some bar) :
    bar.length = 48 ∧
    ∀ i : ℕ, i < 48 → i % 12 = 0 → bar.get? i = some Glyph.marker := by
  rw [getTimelineBar] at h
  obtain ⟨r, hr, hbar⟩ := Option.map_eq_some'.mp h
  have hlen : r.length = 48 := by
    have := fillBlocks_length 48 blocks _ r hr
    simpa using this
  constructor
  · rw [← hbar, markPass_length, hlen]
  · intro i h48 hm
    rw [← hbar]
    exact markPass_marker r i (by rw [hlen]; exact h48) hm

/-- C3 witness: the one-hour midnight opus block yields the 48-glyph bar
`demoBar`, whose slot 12 indeed carries the marker. -/
theorem c3_witness :
    getTimelineBar [demoBlockOpus] 48 = some demoBar ∧
    demoBar.length = 48 ∧
    demoBar.get? 12 = some Glyph.marker :=
  ⟨by decide, (c3_bar_fixed_width [demoBlockOpus] demoBar (by decide)).1,
    (c3_bar_fixed_width [demoBlockOpus] demoBar (by decide)).2 12 (by decide) (by decide)⟩

/-- Glyph selection succeeds exactly on nonempty model lists. -/
theorem barCharFor_eq_none (b : Block) : barCharFor b = none ↔ b.models = [] := by
  rw [barCharFor]
  cases hm : b.models with
  | nil => simp [hm]
  | cons m ms =>
    constructor
    · intro h
      split at h
      · exact Option.noConfusion h
      · dsimp only at h
        split_ifs at h
    · intro h
      cases h

/-- A block with an empty model list anywhere in the list makes the
filling pass raise. -/
theorem fillBlocks_none (w : ℕ) :
    ∀ (bs : List Block) (tl : List Glyph),
      (∃ b ∈ bs, b.models = []) → fillBlocks w bs tl = none := by
  intro bs
  induction bs with
  | nil =>
    intro tl h
    obtain ⟨b, hb, _⟩ := h
    cases hb
  | cons b bs ih =>
    intro tl h
    obtain ⟨x, hx, hxe⟩ := h
    cases hbc : barCharFor b with
    | none => simp [fillBlocks, hbc]
    | some g =>
      rcases List.mem_cons.mp hx with rfl | hx'
      · rw [(barCharFor_eq_none x).mpr hxe] at hbc
        cases hbc
      · simp only [fillBlocks, hbc]
        exact ih _ ⟨x, hx', hxe⟩

/-- When every block has at least one model, the filling pass
completes. -/
theorem fillBlocks_isSome (w : ℕ) :
    ∀ (bs : List Block) (tl : List Glyph),
      (∀ b ∈ bs, b.models ≠ []) → ∃ r, fillBlocks w bs tl = some r := by
  intro bs
  induction bs with
  | nil => intro tl _; exact ⟨tl, rfl⟩
  | cons b bs ih =>
    intro tl h
    cases hbc : barCharFor b with
    | none =>
      exact absurd ((barCharFor_eq_none b).mp hbc) (h b (List.mem_cons_self b bs))
    | some g =>
      obtain ⟨r, hr⟩ := ih (writeBlock w tl b g) (fun x hx => h x (List.mem_cons_of_mem b hx))
      exact ⟨r, by simp only [fillBlocks, hbc]; exact hr⟩

/-- C9: timeline rendering reads the first model of each block without a
guard: a block with an empty model list makes the bar computation (and
hence the day-row rendering of any view showing that day) fail, and
conversely every block having at least one model guarantees the bar is
produced. -/
theorem c9_empty_models_crash (blocks : List Block) (k : ℤ) (d : DayData) :
    ((∃ b ∈ blocks, b.models = []) → getTimelineBar blocks 48 = none) ∧
    ((∀ b ∈ blocks, b.models ≠ []) → (getTimelineBar blocks 48).isSome = true) ∧
    ((∃ b ∈ d.blocks, b.models = []) → (renderDayRow k d).ok = false) := by
  refine ⟨?_, ?_, ?_⟩
  · intro h
    rw [getTimelineBar, fillBlocks_none 48 blocks _ h]
    rfl
  · intro h
    obtain ⟨r, hr⟩ := fillBlocks_isSome 48 blocks (List.replicate 48 Glyph.empty) h
    rw [getTimelineBar, hr]
    rfl
  · intro h
    have hnone : getTimelineBar d.blocks 48 = none := by
      rw [getTimelineBar, fillBlocks_none 48 d.blocks _ h]
      rfl
    simp [renderDayRow, hnone]

/-- C9 witness: the concrete block with no models makes the bar `none`
and the day row fail. -/
theorem c9_witness :
    blockNoModels.models = [] ∧
    getTimelineBar [blockNoModels] 48 = none ∧
    (renderDayRow 100 dayNoModels).ok = false :=
  ⟨rfl,
    (c9_empty_models_crash [blockNoModels] 100 dayNoModels).1
      ⟨blockNoModels, List.mem_cons_self _ _, rfl⟩,
    (c9_empty_models_crash [blockNoModels] 100 dayNoModels).2.2
      ⟨blockNoModels, List.mem_cons_self _ _, rfl⟩⟩

/-- Entries of `insertDay` satisfy any invariant that is preserved by
`dayAdd` with any block of the given class and holds on fresh
entries. -/
theorem insertDay_forall (P : ℤ × DayData → Prop) (Qb : Block → Prop) (k : ℤ) (b : Block)
    (hQ : Qb b)
    (hadd : ∀ (k' : ℤ) (d : DayData) (b' : Block), Qb b' → P (k', d) → P (k', dayAdd d b'))
    (hnew : ∀ (k' : ℤ) (b' : Block), Qb b' → P (k', dayAdd emptyDay b')) :
    ∀ daily : List (ℤ × DayData), (∀ p ∈ daily, P p) → ∀ p ∈ insertDay k b daily, P p := by
  intro daily
  induction daily with
  | nil =>
    intro _ p hp
    simp only [insertDay, List.mem_singleton] at hp
    subst hp
    exact hnew k b hQ
  | cons a rest ih =>
    obtain ⟨k', d⟩ := a
    intro h p hp
    by_cases hk : k' = k
    · simp only [insertDay, if_pos hk] at hp
      rcases List.mem_cons.mp hp with rfl | hp'
      · exact hadd k' d b hQ (h (k', d) (List.mem_cons_self _ _))
      · exact h p (List.mem_cons_of_mem _ hp')
    · simp only [insertDay, if_neg hk] at hp
      rcases List.mem_cons.mp hp with rfl | hp'
      · exact h _ (List.mem_cons_self _ _)
      · exact ih (fun q hq => h q (List.mem_cons_of_mem _ hq)) p hp'

/-- Entries of the grouping fold satisfy any invariant preserved by
`dayAdd` and established on fresh entries. -/
theorem groupByDate_forall (P : ℤ × DayData → Prop) (Qb : Block → Prop)
    (hadd : ∀ (k : ℤ) (d : DayData) (b : Block), Qb b → P (k, d) → P (k, dayAdd d b))
    (hnew : ∀ (k : ℤ) (b : Block), Qb b → P (k, dayAdd emptyDay b)) :
    ∀ blocks : List Block, (∀ b ∈ blocks, Qb b) →
      ∀ daily : List (ℤ × DayData), (∀ p ∈ daily, P p) →
        ∀ p ∈ blocks.foldl (fun dy b => insertDay b.start_time.date b dy) daily, P p := by
  intro blocks
  induction blocks with
  | nil => intro _ daily h p hp; exact h p hp
  | cons b bs ih =>
    intro hQ daily h
    simp only [List.foldl_cons]
    exact ih (fun x hx => hQ x (List.mem_cons_of_mem _ hx)) _
      (insertDay_forall P Qb _ b (hQ b (List.mem_cons_self _ _)) hadd hnew daily h)

/-- Updating the dictionary with one block adds that block's
contribution to the total of any additive aggregate field. -/
theorem insertDay_sum {M : Type} [AddCommMonoid M] (g : DayData → M) (f : Block → M)
    (hg : ∀ d b, g (dayAdd d b) = g d + f b) (h0 : g emptyDay = 0) (k : ℤ) (b : Block) :
    ∀ daily : List (ℤ × DayData),
      ((insertDay k b daily).map (fun p => g p.2)).sum
        = (daily.map (fun p => g p.2)).sum + f b := by
  intro daily
  induction daily with
  | nil => simp [insertDay, hg, h0]
  | cons a rest ih =>
    obtain ⟨k', d⟩ := a
    by_cases hk : k' = k
    · simp only [insertDay, if_pos hk, List.map_cons, List.sum_cons, hg]
      rw [add_right_comm]
    · simp only [insertDay, if_neg hk, List.map_cons, List.sum_cons, ih]
      exact (add_assoc _ _ _).symm

/-- The grouping fold preserves the total of any additive aggregate
field: summing it over all days adds up the per-block contributions. -/
theorem groupByDate_sum {M : Type} [AddCommMonoid M] (g : DayData → M) (f : Block → M)
    (hg : ∀ d b, g (dayAdd d b) = g d + f b) (h0 : g emptyDay = 0) :
    ∀ (blocks : List Block) (daily : List (ℤ × DayData)),
      ((blocks.foldl (fun dy b => insertDay b.start_time.date b dy) daily).map
          (fun p => g p.2)).sum
        = (daily.map (fun p => g p.2)).sum + (blocks.map f).sum := by
  intro blocks
  induction blocks with
  | nil => intro daily; simp
  | cons b bs ih =>
    intro daily
    simp only [List.foldl_cons, List.map_cons, List.sum_cons]
    rw [ih, insertDay_sum g f hg h0]
    rw [add_assoc]

/-- C1: for every loaded dataset, each daily aggregate's totals equal
the sums over that day's stored block list, and the sums of the per-day
totals over all days equal the corresponding sums over all blocks of the
loaded collection (exactly, in the rational model of costs). -/
theorem c1_aggregate_totals (raws : List RawBlock) :
    (∀ p ∈ groupByDate (loadFromJson raws),
        p.2.total_duration = (p.2.blocks.map (·.duration_minutes)).sum ∧
        p.2.total_cost = (p.2.blocks.map (·.cost_usd)).sum ∧
        p.2.total_tokens = (p.2.blocks.map (·.total_tokens)).sum ∧
        p.2.total_entries = (p.2.blocks.map (·.entries)).sum) ∧
    ((groupByDate (loadFromJson raws)).map (·.2.total_duration)).sum
        = ((loadFromJson raws).map (·.duration_minutes)).sum ∧
    ((groupByDate (loadFromJson raws)).map (·.2.total_cost)).sum
        = ((loadFromJson raws).map (·.cost_usd)).sum ∧
    ((groupByDate (loadFromJson raws)).map (·.2.total_tokens)).sum
        = ((loadFromJson raws).map (·.total_tokens)).sum ∧
    ((groupByDate (loadFromJson raws)).map (·.2.total_entries)).sum
        = ((loadFromJson raws).map (·.entries)).sum := by
  refine ⟨?_, ?_, ?_, ?_, ?_⟩
  · apply groupByDate_forall
      (fun p =>
        p.2.total_duration = (p.2.blocks.map (·.duration_minutes)).sum ∧
        p.2.total_cost = (p.2.blocks.map (·.cost_usd)).sum ∧
        p.2.total_tokens = (p.2.blocks.map (·.total_tokens)).sum ∧
        p.2.total_entries = (p.2.blocks.map (·.entries)).sum)
      (fun _ => True)
    · intro k d b _ hP
      simp only [dayAdd, List.map_append, List.sum_append, List.map_cons, List.sum_cons,
        List.map_nil, List.sum_nil, add_zero]
      exact ⟨by rw [hP.1], by rw [hP.2.1], by rw [hP.2.2.1], by rw [hP.2.2.2]⟩
    · intro k b _
      simp [dayAdd, emptyDay]
    · intro b _
      trivial
    · intro p hp
      cases hp
  · have h := groupByDate_sum (fun d => d.total_duration) (fun b => b.duration_minutes)
      (fun d b => rfl) rfl (loadFromJson raws) []
    simpa [groupByDate] using h
  · have h := groupByDate_sum (fun d => d.total_cost) (fun b => b.cost_usd)
      (fun d b => rfl) rfl (loadFromJson raws) []
    simpa [groupByDate] using h
  · have h := groupByDate_sum (fun d => d.total_tokens) (fun b => b.total_tokens)
      (fun d b => rfl) rfl (loadFromJson raws) []
    simpa [groupByDate] using h
  · have h := groupByDate_sum (fun d => d.total_entries) (fun b => b.entries)
      (fun d b => rfl) rfl (loadFromJson raws) []
    simpa [groupByDate] using h

/-- C1 witness: on the sample dataset the single daily aggregate's
duration total equals the sum over its stored blocks, and the day-wise
token totals sum to the collection-wide token sum. -/
theorem c1_witness :
    demoEntry ∈ groupByDate (loadFromJson demoRaws) ∧
    demoEntry.2.total_duration = (demoEntry.2.blocks.map (·.duration_minutes)).sum ∧
    ((groupByDate (loadFromJson demoRaws)).map (·.2.total_tokens)).sum
      = ((loadFromJson demoRaws).map (·.total_tokens)).sum :=
  ⟨List.mem_cons_self _ _,
    ((c1_aggregate_totals demoRaws).1 demoEntry (List.mem_cons_self _ _)).1,
    (c1_aggregate_totals demoRaws).2.2.2.1⟩

/-- The loader never emits a gap block. -/
theorem loadFromJson_no_gap :
    ∀ raws : List RawBlock, ∀ b ∈ loadFromJson raws, b.is_gap = false := by
  intro raws
  induction raws with
  | nil => intro b hb; cases hb
  | cons r rs ih =>
    intro b hb
    by_cases hg : r.isGap = true
    · rw [loadFromJson, if_pos hg] at hb
      exact ih b hb
    · rw [loadFromJson, if_neg hg] at hb
      rcases List.mem_cons.mp hb with rfl | hb'
      · simp only [blockOfRaw]
        exact Bool.not_eq_true _ |>.mp hg
      · exact ih b hb'

/-- C4: gap-flagged raw blocks are excluded by the loader: every block
of the in-memory collection has a cleared gap flag, and so does every
block stored inside any daily aggregate built from the collection. -/
theorem c4_gap_blocks_excluded (raws : List RawBlock) :
    (∀ b ∈ loadFromJson raws, b.is_gap = false) ∧
    (∀ p ∈ groupByDate (loadFromJson raws), ∀ b ∈ p.2.blocks, b.is_gap = false) := by
  constructor
  · exact loadFromJson_no_gap raws
  · apply groupByDate_forall
      (fun p => ∀ b ∈ p.2.blocks, b.is_gap = false)
      (fun b => b.is_gap = false)
    · intro k d b hQ hP x hx
      simp only [dayAdd] at hx
      rcases List.mem_append.mp hx with hx' | hx'
      · exact hP x hx'
      · rw [List.mem_singleton.mp hx']
        exact hQ
    · intro k b hQ x hx
      simp only [dayAdd, emptyDay, List.nil_append] at hx
      rw [List.mem_singleton.mp hx]
      exact hQ
    · exact loadFromJson_no_gap raws
    · intro p hp
      cases hp

/-- C4 witness: the sample dataset contains a gap block; the first
loaded block is in the collection and its gap flag is cleared. -/
theorem c4_witness :
    blockOfRaw rawA ∈ loadFromJson demoRaws ∧
    (blockOfRaw rawA).is_gap = false :=
  ⟨List.mem_cons_self _ _,
    (c4_gap_blocks_excluded demoRaws).1 (blockOfRaw rawA) (List.mem_cons_self _ _)⟩

/-- C6: after sorting the day table by cost descending, the first
element's total cost bounds the total cost of every day in the
dataset. -/
theorem c6_sort_cost_head_max (daily : List (ℤ × DayData)) (hd : ℤ × DayData)
    (tl : List (ℤ × DayData)) (h : sortDaysDesc .cost daily = hd :: tl) :
    ∀ p ∈ daily, p.2.total_cost ≤ hd.2.total_cost := by
  have h' : List.mergeSort daily (fun a b => decide (b.2.total_cost ≤ a.2.total_cost))
      = hd :: tl := h
  intro p hp
  have hmem : p ∈ List.mergeSort daily
      (fun a b => decide (b.2.total_cost ≤ a.2.total_cost)) :=
    List.mem_mergeSort.mpr hp
  rw [h'] at hmem
  rcases List.mem_cons.mp hmem with rfl | hmem'
  · exact le_refl _
  · have hs := @List.sorted_mergeSort (ℤ × DayData)
      (fun a b => decide (b.2.total_cost ≤ a.2.total_cost))
      (fun a b c h1 h2 => by
        simp only [decide_eq_true_eq] at h1 h2 ⊢
        exact le_trans h2 h1)
      (fun a b => by
        simp only [Bool.or_eq_true, decide_eq_true_eq]
        exact le_total b.2.total_cost a.2.total_cost)
      daily
    rw [h'] at hs
    have := (List.pairwise_cons.mp hs).1 p hmem'
    simpa using this

/-- C6 witness: on the two-day sample map, sorting by cost descending
puts the expensive day first and its cost bounds the other day's
cost. -/
theorem c6_witness :
    sortDaysDesc .cost demoDaily = (101, demoDayHigh) :: [(100, demoDayLow)] ∧
    (100, demoDayLow) ∈ demoDaily ∧
    demoDayLow.total_cost ≤ demoDayHigh.total_cost := by
  have hsort : sortDaysDesc .cost demoDaily = (101, demoDayHigh) :: [(100, demoDayLow)] := by
    norm_num [sortDaysDesc, demoDaily, demoDayLow, demoDayHigh, List.mergeSort]
  refine ⟨hsort, List.mem_cons_self _ _, ?_⟩
  exact c6_sort_cost_head_max demoDaily (101, demoDayHigh) [(100, demoDayLow)] hsort
    (100, demoDayLow) (List.mem_cons_self _ _)

/-- C10: with a sort order requested, an explicit limit of 0 is falsy
and falls back to the default limit of 10: the selected rows coincide
with those of an absent limit, and exactly min 10 (number of days) rows
are shown, not zero. -/
theorem c10_limit_zero_default (daily : List (ℤ × DayData)) (key : SortKey) :
    shownRowsSorted key (resolveLimit (some 0) (some key)) daily
      = shownRowsSorted key (resolveLimit none (some key)) daily ∧
    (shownRowsSorted key (resolveLimit (some 0) (some key)) daily).length
      = min 10 daily.length := by
  have hres : resolveLimit (some 0) (some key) = some 10 := rfl
  have hres' : resolveLimit none (some key) = some 10 := rfl
  refine ⟨by rw [hres, hres'], ?_⟩
  rw [hres]
  cases key <;>
    simp [shownRowsSorted, sortDaysDesc, pySlice, List.length_take, List.length_mergeSort]

/-- C5 counterexample: two datasets whose blocks lie in the current
5-hour window and differ only in cost (zero versus exactly the hardcoded
maximum cost) produce the same usage percentage, and that percentage is
0 even when the cost total equals the cost maximum: the hardcoded
cost constant takes no part in the computation, refuting the claim that
the percentage is computed against both constants. -/
theorem c5_counterexample :
    (getCurrentSessionInfo [blkCostMax] nowC).total_cost = MAX_COST_5H ∧
    (getCurrentSessionInfo [blkCostZero] nowC).total_cost = 0 ∧
    (getCurrentSessionInfo [blkCostMax] nowC).usage_percent
      = (getCurrentSessionInfo [blkCostZero] nowC).usage_percent ∧
    (getCurrentSessionInfo [blkCostMax] nowC).usage_percent = 0 := by
  refine ⟨?_, ?_, ?_, ?_⟩ <;>
    norm_num [getCurrentSessionInfo, blkCostMax, blkCostZero, nowC, MAX_COST_5H,
      MAX_TOKENS_5H, Stamp.toDateTime, PyDateTime.toMicro, bumpCount, firstMaxByCount]

/-- The reset instant computed by hour-replacement and day-carry equals
the window start plus exactly five hours of microseconds, for any valid
wall-clock hour. -/
theorem reset_time_micro (now : PyDateTime) (h : now.hour < 24) :
    PyDateTime.toMicro ⟨now.day + (if (now.hour / 5) * 5 + 5 ≥ 24 then 1 else 0),
        ((now.hour / 5) * 5 + 5) % 24, 0, 0, 0⟩
      = PyDateTime.toMicro ⟨now.day, (now.hour / 5) * 5, 0, 0, 0⟩ + 18000000000 := by
  interval_cases hh : now.hour <;> (simp [PyDateTime.toMicro]; ring)

/-- C5 (amended): for every dataset and wall-clock instant, the
current-session usage percentage is the token total of the blocks
starting inside the current 5-hour window divided by the hardcoded
maximum token count, times 100; the hardcoded maximum cost constant is
declared but unused. -/
theorem c5_usage_tokens_only (blocks : List Block) (now : PyDateTime)
    (h : now.hour < 24) :
    (getCurrentSessionInfo blocks now).usage_percent
      = ((((blocks.filter (fun b =>
            PyDateTime.toMicro ⟨now.day, (now.hour / 5) * 5, 0, 0, 0⟩
              ≤ b.start_time.toDateTime.toMicro
            && b.start_time.toDateTime.toMicro
              < PyDateTime.toMicro ⟨now.day, (now.hour / 5) * 5, 0, 0, 0⟩
                  + 18000000000)).map
          (·.total_tokens)).sum : ℤ) : ℚ) / (MAX_TOKENS_5H : ℚ) * 100 := by
  simp only [getCurrentSessionInfo]
  rw [reset_time_micro now h]
  norm_num [MAX_TOKENS_5H]

/-- C5 witness: the amended statement applied to the one-block window
sample at 02:00. -/
theorem c5_witness :
    nowC.hour < 24 ∧
    (getCurrentSessionInfo [blkCostMax] nowC).usage_percent
      = (((([blkCostMax].filter (fun b =>
            PyDateTime.toMicro ⟨nowC.day, (nowC.hour / 5) * 5, 0, 0, 0⟩
              ≤ b.start_time.toDateTime.toMicro
            && b.start_time.toDateTime.toMicro
              < PyDateTime.toMicro ⟨nowC.day, (nowC.hour / 5) * 5, 0, 0, 0⟩
                  + 18000000000)).map
          (·.total_tokens)).sum : ℤ) : ℚ) / (MAX_TOKENS_5H : ℚ) * 100 :=
  ⟨by decide, c5_usage_tokens_only [blkCostMax] nowC (by decide)⟩

/-- C8: an input whose body is not valid JSON, and likewise a missing
named input file, exits with code 1 after writing exactly one diagnostic
line naming the failure to the error stream and nothing to standard
output; a handled "no data" run (an input that loads zero blocks) exits
with code 0 under every combination of flags. -/
theorem c8_exit_codes (args : Args) (now : PyDateTime) (m p : String)
    (raws : List RawBlock) (hempty : loadFromJson raws = []) :
    mainModel args now (.invalidJson m)
      = { exitCode := 1, stdoutLines := [], stderrLines := [.invalidJson m] } ∧
    mainModel args now (.fileNotFound p)
      = { exitCode := 1, stdoutLines := [], stderrLines := [.fileNotFound p] } ∧
    (mainModel args now (.ok raws)).exitCode = 0 := by
  refine ⟨rfl, rfl, ?_⟩
  obtain ⟨file, hu, hc, sc, sd, date, summ, msum, nc, nl, lim, cur⟩ := args
  cases cur <;> cases date <;> cases msum <;> cases summ <;>
    simp [mainModel, hempty, groupByDate, renderDailyDetail, daysLookup,
      renderTimelineTable, ROut.andThen]

/-- C8 witness: a malformed-JSON run exits 1 with one diagnostic and
empty standard output, and the plain run on an input holding only a gap
block (so zero loaded blocks) exits 0. -/
theorem c8_witness :
    loadFromJson [rawGap] = [] ∧
    mainModel defaultArgs nowC (.invalidJson "bad")
      = { exitCode := 1, stdoutLines := [], stderrLines := [.invalidJson "bad"] } ∧
    (mainModel defaultArgs nowC (.ok [rawGap])).exitCode = 0 :=
  ⟨rfl, (c8_exit_codes defaultArgs nowC "bad" "nofile" [rawGap] rfl).1,
    (c8_exit_codes defaultArgs nowC "bad" "nofile" [rawGap] rfl).2.2⟩
